import Mathlib

/-!
Verification of the time-series bucketing logic of `src/streamlit_app.py`
(Starknet-Data-Explorer).

Embedding conventions:
* Dates picked in the UI (`st.date_input`) are modelled as day numbers
  (`Nat`): days since 2023-01-01 (the app's default start date).  The
  Gregorian calendar from 2023-01-01 onwards is embedded through
  `daysInMonth` / `monthStart`.
* Timestamps (pandas `Timestamp`, e.g. `BLOCK_DATE` values) are modelled in
  hours since 2023-01-01 00:00, so a date `d` corresponds to the midnight
  timestamp `24 * d`, and the hourly frequency is representable.
* Numeric cell values are modelled as `Rat`; a missing value (pandas `NaN`)
  is modelled by absence from a row's association list.
* `generate_time_series` (lines 52-72) is decomposed into
  `selectGranularity` (the `if days_diff` chain) and `buildBoundaries`
  (the `pd.date_range(start, end, freq=interval)` call); their composition
  `generate_time_series` mirrors the Python function.
-/

/-- The five resampling frequencies the source can choose:
`'H'`, `'D'`, `'2D'`, `'5D'`, `'M'`. -/
inductive Granularity where
  | hourly
  | daily
  | every2Days
  | every5Days
  | monthly
deriving DecidableEq, Repr

/-- Gregorian leap-year rule. -/
def isLeap (y : Nat) : Bool :=
  (y % 4 == 0 && y % 100 != 0) || y % 400 == 0

/-- Number of days of the month with index `i`, where `i` counts months
since 2023-01 (so `i = 0` is January 2023, `i = 12` is January 2024):
February is 28/29 by the leap rule; April, June, September, November are
30; the rest are 31. -/
def daysInMonth (i : Nat) : Nat :=
  if i % 12 = 1 then if isLeap (2023 + i / 12) then 29 else 28
  else if i % 12 = 3 ∨ i % 12 = 5 ∨ i % 12 = 8 ∨ i % 12 = 10 then 30
  else 31

/-- Day number (days since 2023-01-01) of the first day of month `i`. -/
def monthStart : Nat → Nat
  | 0 => 0
  | i + 1 => monthStart i + daysInMonth i

/-- Day number of the last day of month `i`. -/
def monthEnd (i : Nat) : Nat := monthStart (i + 1) - 1

/-- Day number of the calendar date `y-m-d` (for `y ≥ 2023`). -/
def mkDay (y m d : Nat) : Nat :=
  monthStart (12 * (y - 2023) + (m - 1)) + (d - 1)

/-- The `if days_diff == 0 / elif days_diff <= 10 / ...` chain of
`generate_time_series` (`src/streamlit_app.py` lines 53-70), which picks the
resampling frequency from `days_diff = (end_date - start_date).days`. -/
def selectGranularity (s e : Nat) : Granularity :=
  if (e : Int) - (s : Int) = 0 then .hourly
  else if (e : Int) - (s : Int) ≤ 10 then .daily
  else if (e : Int) - (s : Int) ≤ 30 then .every2Days
  else if (e : Int) - (s : Int) ≤ 60 then .every5Days
  else .monthly

/-- Bucket width in hours of the fixed-width frequencies; `monthly` is
calendar-based and does not use this. -/
def widthHours : Granularity → Nat
  | .hourly => 1
  | .daily => 24
  | .every2Days => 48
  | .every5Days => 120
  | .monthly => 0

/-- `pd.date_range(start=S, end=E, freq=w)` for a fixed width `w` (hours):
the arithmetic sequence `S, S + w, S + 2w, …` truncated at `E`; empty when
`S > E`. -/
def fixedRange (S E w : Nat) : List Nat :=
  if S ≤ E then (List.range ((E - S) / w + 1)).map (fun k => S + k * w) else []

/-- `pd.date_range(start, end, freq='M')`: the calendar month-end dates that
lie inside `[s, e]` (day numbers), returned as midnight hour timestamps.
The candidate window `e / 28 + 2` is exhaustive because every month has at
least 28 days. -/
def monthEndsIn (s e : Nat) : List Nat :=
  (List.range (e / 28 + 2)).filterMap (fun i =>
    if s ≤ monthEnd i ∧ monthEnd i ≤ e then some (24 * monthEnd i) else none)

/-- The `times = pd.date_range(start=start_date, end=end_date, freq=interval)`
call of `generate_time_series`, for the chosen frequency. -/
def buildBoundaries (s e : Nat) (g : Granularity) : List Nat :=
  match g with
  | .monthly => monthEndsIn s e
  | g => fixedRange (24 * s) (24 * e) (widthHours g)

/-- `generate_time_series(start_date, end_date)` (lines 52-72): returns the
boundary timestamps together with the chosen frequency. -/
def generate_time_series (s e : Nat) : List Nat × Granularity :=
  let g := selectGranularity s e
  (buildBoundaries s e g, g)

/-- A dataframe row: the `BLOCK_DATE` cell (in hours; `none` models `NaT`)
together with the numeric cells that are present (`NaN` cells are absent
from the list). -/
structure Row where
  ts : Option Nat
  fields : List (String × Rat)
deriving DecidableEq, Repr

/-- A pandas dataframe as `resample_data` sees it: whether `BLOCK_DATE` is
currently the index (after `set_index`) or a plain column, the numeric
column names, and the rows. -/
structure Frame where
  blockDateIsIndex : Bool
  cols : List String
  rows : List Row
deriving DecidableEq, Repr

/-- `df.set_index('BLOCK_DATE', inplace=True)` (line 76): turns the
`BLOCK_DATE` column into the index, mutating the frame. -/
def set_index (f : Frame) : Frame := { f with blockDateIsIndex := true }

/-- Midnight of the day containing hour `t` (`origin='start_day'`). -/
def floorDay (t : Nat) : Nat := t / 24 * 24

/-- Fuel-driven search for the first month index `i ≥ i0` whose month end is
at or after hour `t`. -/
def mIdxAux (t : Nat) : Nat → Nat → Nat
  | 0, i => i
  | fuel + 1, i => if t ≤ 24 * monthEnd i then i else mIdxAux t fuel (i + 1)

/-- Index of the first month whose month-end midnight is `≥ t`: the `'M'`
(month-end, right-closed right-labelled) resampling bin of hour `t`. -/
def mIdx (t : Nat) : Nat := mIdxAux t (t + 1) 0

/-- The resampling bin label of hour timestamp `t`: for the fixed-width
frequencies the left edge of its bin in the grid anchored at origin `o`
(pandas default `closed='left'`, `label='left'`, `origin='start_day'`);
for `'M'` the month-end midnight at or after `t` (pandas default
`closed='right'`, `label='right'` for month-end frequencies). -/
def binLabel (g : Granularity) (o t : Nat) : Nat :=
  match g with
  | .monthly => 24 * monthEnd (mIdx t)
  | g => o + (t - o) / widthHours g * widthHours g

/-- The consecutive bin labels from the bin of `mn` to the bin of `mx`
(pandas emits every bin between the first and last data point, including
empty ones). -/
def labelSeq (g : Granularity) (o mn mx : Nat) : List Nat :=
  match g with
  | .monthly =>
    (List.range (mIdx mx - mIdx mn + 1)).map (fun j => 24 * monthEnd (mIdx mn + j))
  | g =>
    (List.range ((binLabel g o mx - binLabel g o mn) / widthHours g + 1)).map
      (fun k => binLabel g o mn + k * widthHours g)

/-- Minimum of a list of timestamps (0 for the empty list, unused there). -/
def minD : List Nat → Nat
  | [] => 0
  | t :: ts => ts.foldr Nat.min t

/-- Maximum of a list of timestamps (0 for the empty list, unused there). -/
def maxD : List Nat → Nat
  | [] => 0
  | t :: ts => ts.foldr Nat.max t

/-- Value of column `c` in a row's cell list (`none` models `NaN`). -/
def lookupF (c : String) : List (String × Rat) → Option Rat
  | [] => none
  | (k, v) :: l => if k = c then some v else lookupF c l

/-- Mean of the present values of column `c` over the rows `rs` of one
bucket: pandas `.mean()` with its default `skipna=True` — `NaN` (absent)
cells contribute to neither the sum nor the count, and a column with no
present value yields `NaN` (here: `none`). -/
def fieldMean (c : String) (rs : List (Nat × List (String × Rat))) : Option Rat :=
  let vals := rs.filterMap (fun r => lookupF c r.2)
  if vals = [] then none else some (vals.sum / (vals.length : Rat))

/-- The per-bucket output cells: one entry per column that has a defined
mean over the bucket. -/
def meanFields (cols : List String) (rs : List (Nat × List (String × Rat))) :
    List (String × Rat) :=
  cols.filterMap (fun c => (fieldMean c rs).map (fun v => (c, v)))

/-- `df.resample(interval).mean()` on the timestamped rows `tss` (rows whose
`BLOCK_DATE` was `NaT` have already been dropped, as pandas does): one
output row per bin between the earliest and latest timestamp, each holding
the per-column means over the rows falling in that bin.  An empty frame
resamples to an empty frame. -/
def resampleOut (g : Granularity) (cols : List String)
    (tss : List (Nat × List (String × Rat))) : List (Nat × List (String × Rat)) :=
  if tss = [] then []
  else
    let times := tss.map Prod.fst
    let o := floorDay (minD times)
    (labelSeq g o (minD times) (maxD times)).map
      (fun L => (L, meanFields cols (tss.filter (fun r => binLabel g o r.1 = L))))

/-- `resample_data(df, interval, columns)` (lines 75-79).  The first
component is the resampled output (`resampled_df` after `reset_index`); the
second component is the state of the caller's dataframe after the call —
`set_index(..., inplace=True)` mutates it.  The `columns` argument is
accepted but unused, exactly as in the source. -/
def resample_data (df : Frame) (g : Granularity) (columns : List String) :
    List (Nat × List (String × Rat)) × Frame :=
  let df1 := set_index df
  let tss := df1.rows.filterMap (fun r => r.ts.map (fun t => (t, r.fields)))
  (resampleOut g df1.cols tss, df1)

/-- A raw `BLOCK_DATE` cell as fetched from the warehouse: a parseable
timestamp, a null, or an unparseable value. -/
inductive RawTs where
  | null
  | ts (t : Nat)
  | invalid (s : String)
deriving DecidableEq, Repr

/-- A fetched row before timestamp conversion. -/
structure RawRow where
  blockDate : RawTs
  fields : List (String × Rat)
deriving DecidableEq, Repr

/-- `pd.to_datetime(data['BLOCK_DATE'])` (line 107) with its default
`errors='raise'`: nulls become `NaT`, parseable cells become timestamps,
and an unparseable cell raises. -/
def to_datetime : List RawTs → Except String (List (Option Nat))
  | [] => .ok []
  | .null :: rest => (to_datetime rest).map (fun l => none :: l)
  | .ts t :: rest => (to_datetime rest).map (fun l => some t :: l)
  | .invalid s :: rest => .error s

/-- Sort key of `data.sort_values('BLOCK_DATE')`: ascending timestamps with
`NaT` placed last (pandas default `na_position='last'`). -/
def rowLE (a b : Row) : Bool :=
  match a.ts, b.ts with
  | some x, some y => x ≤ y
  | some _, none => true
  | none, some _ => false
  | none, none => true

/-- Insertion step of a stable insertion sort by `rowLE`. -/
def insertRow (a : Row) : List Row → List Row
  | [] => [a]
  | b :: l => if rowLE a b then a :: b :: l else b :: insertRow a l

/-- `data.sort_values('BLOCK_DATE', inplace=True)` (line 108), as a stable
insertion sort. -/
def sortRows : List Row → List Row
  | [] => []
  | a :: l => insertRow a (sortRows l)

/-- The aggregation path of `main` (lines 106-111): convert `BLOCK_DATE`
with `pd.to_datetime`, sort by it, choose the frequency with
`generate_time_series`, and resample.  An unparseable timestamp makes the
whole computation fail; the result carries no skipped-row count. -/
def mainResample (raw : List RawRow) (cols : List String) (s e : Nat) :
    Except String (List (Nat × List (String × Rat))) :=
  match to_datetime (raw.map RawRow.blockDate) with
  | .error msg => .error msg
  | .ok ts =>
    let rows := (List.zip ts (raw.map RawRow.fields)).map (fun p => Row.mk p.1 p.2)
    let g := (generate_time_series s e).2
    .ok (resample_data (Frame.mk false cols (sortRows rows)) g cols).1

/-! Helper lemmas about the calendar embedding. -/

lemma daysInMonth_bounds (i : Nat) : 28 ≤ daysInMonth i ∧ daysInMonth i ≤ 31 := by
  unfold daysInMonth
  split_ifs <;> exact ⟨by norm_num, by norm_num⟩

lemma monthStart_lb (i : Nat) : 28 * i ≤ monthStart i := by
  induction i with
  | zero => simp [monthStart]
  | succ n ih =>
    have := (daysInMonth_bounds n).1
    simp only [monthStart]
    omega

lemma monthStart_lt_succ (i : Nat) : monthStart i < monthStart (i + 1) := by
  have := (daysInMonth_bounds i).1
  simp only [monthStart]
  omega

lemma monthStart_strictMono {i j : Nat} (h : i < j) : monthStart i < monthStart j := by
  induction j with
  | zero => omega
  | succ n ih =>
    rcases Nat.lt_succ_iff_lt_or_eq.mp h with h' | h'
    · exact lt_trans (ih h') (monthStart_lt_succ n)
    · subst h'; exact monthStart_lt_succ i

lemma monthEnd_strictMono {i j : Nat} (h : i < j) : monthEnd i < monthEnd j := by
  have h1 := monthStart_strictMono (Nat.add_lt_add_right h 1)
  have h2 := monthStart_lb (i + 1)
  unfold monthEnd
  omega

lemma monthEnd_inj {i j : Nat} (h : monthEnd i = monthEnd j) : i = j := by
  rcases Nat.lt_trichotomy i j with h' | h' | h'
  · exact absurd h (Nat.ne_of_lt (monthEnd_strictMono h'))
  · exact h'
  · exact absurd h.symm (Nat.ne_of_lt (monthEnd_strictMono h'))

/-! Helper lemmas about `pd.date_range`. -/

lemma mem_fixedRange {S E w t : Nat} (hw : 0 < w) (hSE : S ≤ E) :
    t ∈ fixedRange S E w ↔ ∃ k, t = S + k * w ∧ t ≤ E := by
  simp only [fixedRange, if_pos hSE, List.mem_map, List.mem_range]
  constructor
  · rintro ⟨k, hk, rfl⟩
    refine ⟨k, rfl, ?_⟩
    have : k ≤ (E - S) / w := Nat.lt_succ_iff.mp hk
    have := Nat.le_div_iff_mul_le hw |>.mp this
    omega
  · rintro ⟨k, rfl, hle⟩
    refine ⟨k, ?_, rfl⟩
    have : k * w ≤ E - S := by omega
    have := (Nat.le_div_iff_mul_le hw).mpr this
    omega

lemma fixedRange_head {S E w : Nat} (hSE : S ≤ E) :
    (fixedRange S E w).head? = some S := by
  simp only [fixedRange, if_pos hSE, List.range_succ_eq_map, List.map_cons,
    List.head?_cons, Nat.zero_mul, Nat.add_zero]

lemma mem_monthEndsIn {s e t : Nat} :
    t ∈ monthEndsIn s e ↔ ∃ i, t = 24 * monthEnd i ∧ s ≤ monthEnd i ∧ monthEnd i ≤ e := by
  simp only [monthEndsIn, List.mem_filterMap, List.mem_range]
  constructor
  · rintro ⟨i, hi, hcond⟩
    split at hcond
    · rename_i hc
      exact ⟨i, (Option.some.inj hcond).symm, hc.1, hc.2⟩
    · exact absurd hcond (by simp)
  · rintro ⟨i, rfl, h1, h2⟩
    refine ⟨i, ?_, by simp [h1, h2]⟩
    have hlb := monthStart_lb (i + 1)
    have hub : monthStart (i + 1) ≤ e + 1 := by unfold monthEnd at h2; omega
    omega

lemma monthEnd_le_of_least {i0 s e : Nat} (hrange : s + 61 ≤ e) (h1 : s ≤ monthEnd i0)
    (h2 : ∀ j, j < i0 → ¬ s ≤ monthEnd j) : monthEnd i0 ≤ e := by
  cases i0 with
  | zero =>
    have ha : monthStart (0 + 1) = monthStart 0 + daysInMonth 0 := rfl
    have hb : monthStart 0 = 0 := rfl
    have hc := (daysInMonth_bounds 0).2
    unfold monthEnd at h1 ⊢
    omega
  | succ j =>
    have hpred : ¬ s ≤ monthEnd j := h2 j (Nat.lt_succ_self j)
    have ha : monthStart (j + 1 + 1) = monthStart (j + 1) + daysInMonth (j + 1) := rfl
    have hb := monthStart_lb (j + 1)
    have hc := (daysInMonth_bounds (j + 1)).2
    unfold monthEnd at hpred h1 ⊢
    omega

lemma monthEndsIn_ne_nil {s e : Nat} (h : s + 61 ≤ e) : monthEndsIn s e ≠ [] := by
  have hex : ∃ i, s ≤ monthEnd i := by
    refine ⟨s + 1, ?_⟩
    have := monthStart_lb (s + 1 + 1)
    unfold monthEnd
    omega
  have hi0 : s ≤ monthEnd (Nat.find hex) := Nat.find_spec hex
  have hle : monthEnd (Nat.find hex) ≤ e :=
    monthEnd_le_of_least h hi0 (fun j hj => Nat.find_min hex hj)
  intro hnil
  have hmem : 24 * monthEnd (Nat.find hex) ∈ monthEndsIn s e :=
    mem_monthEndsIn.mpr ⟨Nat.find hex, rfl, hi0, hle⟩
  rw [hnil] at hmem
  exact absurd hmem (List.not_mem_nil _)

lemma widthHours_pos {g : Granularity} (hg : g ≠ .monthly) : 0 < widthHours g := by
  cases g <;> simp_all [widthHours]

lemma buildBoundaries_fixed {g : Granularity} (hg : g ≠ .monthly) (s e : Nat) :
    buildBoundaries s e g = fixedRange (24 * s) (24 * e) (widthHours g) := by
  cases g <;> first | rfl | exact absurd rfl hg

/-! Claim C1.  The granularity selection table. -/

/-- C1: for every TimeRange with start ≤ end, `selectGranularity` follows
the selection table on `d = (end − start).days`: HOURLY when `d = 0`, DAILY
when `0 < d ≤ 10`, EVERY_2_DAYS when `10 < d ≤ 30`, EVERY_5_DAYS when
`30 < d ≤ 60`, MONTHLY when `d > 60`. -/
theorem selectGranularity_table (s e : Nat) (h : s ≤ e) :
    (e - s = 0 → selectGranularity s e = .hourly) ∧
    (0 < e - s ∧ e - s ≤ 10 → selectGranularity s e = .daily) ∧
    (10 < e - s ∧ e - s ≤ 30 → selectGranularity s e = .every2Days) ∧
    (30 < e - s ∧ e - s ≤ 60 → selectGranularity s e = .every5Days) ∧
    (60 < e - s → selectGranularity s e = .monthly) := by
  unfold selectGranularity
  split_ifs with h1 h2 h3 h4 <;>
    refine ⟨fun hd => ?_, fun hd => ?_, fun hd => ?_, fun hd => ?_, fun hd => ?_⟩ <;>
    first | rfl | omega

/-- C1 witness: the boundary values d = 0, 10, 11, 30, 31, 60, 61 map to
HOURLY, DAILY, EVERY_2_DAYS, EVERY_2_DAYS, EVERY_5_DAYS, EVERY_5_DAYS,
MONTHLY. -/
theorem selectGranularity_table_witness :
    selectGranularity 0 0 = .hourly ∧ selectGranularity 0 10 = .daily ∧
    selectGranularity 0 11 = .every2Days ∧ selectGranularity 0 30 = .every2Days ∧
    selectGranularity 0 31 = .every5Days ∧ selectGranularity 0 60 = .every5Days ∧
    selectGranularity 0 61 = .monthly :=
  ⟨(selectGranularity_table 0 0 (by norm_num)).1 (by norm_num),
   (selectGranularity_table 0 10 (by norm_num)).2.1 (by norm_num),
   (selectGranularity_table 0 11 (by norm_num)).2.2.1 (by norm_num),
   (selectGranularity_table 0 30 (by norm_num)).2.2.1 (by norm_num),
   (selectGranularity_table 0 31 (by norm_num)).2.2.2.1 (by norm_num),
   (selectGranularity_table 0 60 (by norm_num)).2.2.2.1 (by norm_num),
   (selectGranularity_table 0 61 (by norm_num)).2.2.2.2 (by norm_num)⟩

/-! Claim C2.  What `buildBoundaries` produces. -/

/-- C2 counterexample: for the MONTHLY range [2024-01-01, 2024-03-05]
(64 days), the boundaries are the month-end dates 2024-01-31 and
2024-02-29 — the first element is not `start`, refuting "first element is
start" and "calendar-month steps from start". -/
theorem buildBoundaries_monthly_cex :
    (generate_time_series (mkDay 2024 1 1) (mkDay 2024 3 5)).2 = Granularity.monthly ∧
    (generate_time_series (mkDay 2024 1 1) (mkDay 2024 3 5)).1 =
      [24 * mkDay 2024 1 31, 24 * mkDay 2024 2 29] ∧
    (generate_time_series (mkDay 2024 1 1) (mkDay 2024 3 5)).1.head? ≠
      some (24 * mkDay 2024 1 1) := by decide

/-- C2 (amended): for the fixed-width granularities the boundary sequence
is non-empty, starts at `start`, and consists exactly of the values
`start + k*width ≤ end`; for MONTHLY it consists exactly of the calendar
month-end dates inside [start, end] (so its first element is in general not
`start`), never exceeds `end`, and is non-empty whenever MONTHLY can be
chosen (d ≥ 61). -/
theorem buildBoundaries_spec (s e : Nat) (h : s ≤ e) (g : Granularity) :
    (g ≠ .monthly →
      (buildBoundaries s e g).head? = some (24 * s) ∧
      (∀ t, t ∈ buildBoundaries s e g ↔
        ∃ k, t = 24 * s + k * widthHours g ∧ t ≤ 24 * e)) ∧
    (g = .monthly →
      (∀ t, t ∈ buildBoundaries s e g ↔
        ∃ i, t = 24 * monthEnd i ∧ s ≤ monthEnd i ∧ monthEnd i ≤ e) ∧
      (∀ t, t ∈ buildBoundaries s e g → t ≤ 24 * e) ∧
      (s + 61 ≤ e → buildBoundaries s e g ≠ [])) := by
  constructor
  · intro hg
    rw [buildBoundaries_fixed hg]
    have hw := widthHours_pos hg
    have hse : 24 * s ≤ 24 * e := by omega
    exact ⟨fixedRange_head hse, fun t => mem_fixedRange hw hse⟩
  · rintro rfl
    have hb : buildBoundaries s e .monthly = monthEndsIn s e := rfl
    rw [hb]
    refine ⟨fun t => mem_monthEndsIn, fun t ht => ?_, monthEndsIn_ne_nil⟩
    obtain ⟨i, rfl, _, hie⟩ := mem_monthEndsIn.mp ht
    omega

/-- C2 witness: a DAILY instance starting at `start`, and a non-empty
MONTHLY instance. -/
theorem buildBoundaries_spec_witness :
    (buildBoundaries 365 368 .daily).head? = some (24 * 365) ∧
    buildBoundaries 365 429 .monthly ≠ [] :=
  ⟨((buildBoundaries_spec 365 368 (by norm_num) .daily).1 (by decide)).1,
   ((buildBoundaries_spec 365 429 (by norm_num) .monthly).2 rfl).2.2 (by norm_num)⟩

/-! Claim C4.  Behaviour on start > end. -/

/-- C4 counterexample: for start = 2024-03-05 > end = 2024-01-01 the code
does not fail: a granularity (DAILY) is selected and returned. -/
theorem invalidRange_cex :
    (generate_time_series (mkDay 2024 3 5) (mkDay 2024 1 1)).2 = Granularity.daily ∧
    (generate_time_series (mkDay 2024 3 5) (mkDay 2024 1 1)).1 = [] := by decide

/-- C4 (amended): a TimeRange with start > end is not rejected and raises no
error: `days_diff` is negative, so the `days_diff <= 10` branch selects
DAILY, and `pd.date_range` with start > end yields an empty boundary
sequence. -/
theorem invalidRange_amended (s e : Nat) (h : e < s) :
    generate_time_series s e = ([], .daily) := by
  have h1 : ¬((e : Int) - (s : Int) = 0) := by omega
  have h2 : (e : Int) - (s : Int) ≤ 10 := by omega
  have h3 : ¬(24 * s ≤ 24 * e) := by omega
  simp [generate_time_series, selectGranularity, h1, h2, buildBoundaries,
    fixedRange, h3, widthHours]

/-- C4 witness. -/
theorem invalidRange_amended_witness : generate_time_series 1 0 = ([], .daily) :=
  invalidRange_amended 1 0 (by norm_num)

/-! Claim C9.  The same-day scenario. -/

/-- C9 counterexample: for the same-day range [2024-01-01, 2024-01-01] the
granularity is HOURLY but `pd.date_range(start, end, freq='H')` with
start = end (both midnight) produces a single boundary — not 24 or 25. -/
theorem same_day_cex :
    (generate_time_series (mkDay 2024 1 1) (mkDay 2024 1 1)).2 = Granularity.hourly ∧
    ¬((generate_time_series (mkDay 2024 1 1) (mkDay 2024 1 1)).1.length = 24 ∨
      (generate_time_series (mkDay 2024 1 1) (mkDay 2024 1 1)).1.length = 25) := by decide

/-- C9 (amended): the same-day range [2024-01-01, 2024-01-01] selects HOURLY
and produces exactly one boundary, 2024-01-01 00:00 (start = end as midnight
instants, so the hourly range is the single point 00:00). -/
theorem same_day_amended :
    (generate_time_series (mkDay 2024 1 1) (mkDay 2024 1 1)).2 = Granularity.hourly ∧
    (generate_time_series (mkDay 2024 1 1) (mkDay 2024 1 1)).1 = [24 * mkDay 2024 1 1] := by
  decide

/-! Helper lemmas about list minima and maxima. -/

lemma foldr_min_le_init (ts : List Nat) (a : Nat) : ts.foldr Nat.min a ≤ a := by
  induction ts with
  | nil => simp
  | cons b ts ih =>
    simp only [List.foldr_cons]
    exact le_trans (Nat.min_le_right b _) ih

lemma foldr_min_le_mem {ts : List Nat} {x : Nat} (a : Nat) (h : x ∈ ts) :
    ts.foldr Nat.min a ≤ x := by
  induction ts with
  | nil => cases h
  | cons b ts ih =>
    simp only [List.foldr_cons]
    rcases List.mem_cons.mp h with rfl | h1
    · exact Nat.min_le_left _ _
    · exact le_trans (Nat.min_le_right _ _) (ih h1)

lemma foldr_max_ge_init (ts : List Nat) (a : Nat) : a ≤ ts.foldr Nat.max a := by
  induction ts with
  | nil => simp
  | cons b ts ih =>
    simp only [List.foldr_cons]
    exact le_trans ih (Nat.le_max_right b _)

lemma foldr_max_ge_mem {ts : List Nat} {x : Nat} (a : Nat) (h : x ∈ ts) :
    x ≤ ts.foldr Nat.max a := by
  induction ts with
  | nil => cases h
  | cons b ts ih =>
    simp only [List.foldr_cons]
    rcases List.mem_cons.mp h with rfl | h1
    · exact Nat.le_max_left _ _
    · exact le_trans (ih h1) (Nat.le_max_right _ _)

lemma minD_le_of_mem {l : List Nat} {x : Nat} (h : x ∈ l) : minD l ≤ x := by
  cases l with
  | nil => cases h
  | cons t ts =>
    rcases List.mem_cons.mp h with rfl | h1
    · exact foldr_min_le_init ts x
    · exact foldr_min_le_mem t h1

lemma le_maxD_of_mem {l : List Nat} {x : Nat} (h : x ∈ l) : x ≤ maxD l := by
  cases l with
  | nil => cases h
  | cons t ts =>
    rcases List.mem_cons.mp h with rfl | h1
    · exact foldr_max_ge_init ts x
    · exact foldr_max_ge_mem t h1

lemma minD_le_maxD {l : List Nat} (h : l ≠ []) : minD l ≤ maxD l := by
  cases l with
  | nil => exact absurd rfl h
  | cons t ts =>
    exact le_trans (minD_le_of_mem (List.mem_cons_self t ts))
      (le_maxD_of_mem (List.mem_cons_self t ts))

/-! Helper lemmas about the resampling embedding. -/

lemma binLabel_fixed {g : Granularity} (hg : g ≠ .monthly) (o t : Nat) :
    binLabel g o t = o + (t - o) / widthHours g * widthHours g := by
  cases g <;> first | rfl | exact absurd rfl hg

lemma labelSeq_fixed {g : Granularity} (hg : g ≠ .monthly) (o mn mx : Nat) :
    labelSeq g o mn mx =
      (List.range ((binLabel g o mx - binLabel g o mn) / widthHours g + 1)).map
        (fun k => binLabel g o mn + k * widthHours g) := by
  cases g <;> first | rfl | exact absurd rfl hg

lemma resampleOut_eq (g : Granularity) (cols : List String)
    (tss : List (Nat × List (String × Rat))) (h : tss ≠ []) :
    resampleOut g cols tss =
      (labelSeq g (floorDay (minD (tss.map Prod.fst))) (minD (tss.map Prod.fst))
          (maxD (tss.map Prod.fst))).map
        (fun L => (L, meanFields cols (tss.filter (fun r =>
          binLabel g (floorDay (minD (tss.map Prod.fst))) r.1 = L)))) := by
  unfold resampleOut
  rw [if_neg h]

lemma mem_resampleOut {g : Granularity} {cols : List String}
    {tss : List (Nat × List (String × Rat))} {L : Nat} {fm : List (String × Rat)}
    (h : (L, fm) ∈ resampleOut g cols tss) :
    L ∈ labelSeq g (floorDay (minD (tss.map Prod.fst))) (minD (tss.map Prod.fst))
        (maxD (tss.map Prod.fst)) ∧
      fm = meanFields cols (tss.filter (fun r =>
        binLabel g (floorDay (minD (tss.map Prod.fst))) r.1 = L)) := by
  by_cases hn : tss = []
  · subst hn; simp [resampleOut] at h
  · rw [resampleOut_eq g cols tss hn] at h
    obtain ⟨L1, hL1, heq⟩ := List.mem_map.mp h
    injection heq with h1 h2
    subst h1
    exact ⟨hL1, h2.symm⟩

lemma pairwise_affine (L0 w n : Nat) (hw : 0 < w) :
    ((List.range n).map (fun k => L0 + k * w)).Pairwise (· < ·) := by
  refine List.Pairwise.map _ ?_ (List.pairwise_lt_range n)
  intro a b hab
  have := Nat.mul_lt_mul_of_lt_of_le hab (le_refl w) hw
  omega

lemma labelSeq_pairwise (g : Granularity) (o mn mx : Nat) :
    (labelSeq g o mn mx).Pairwise (· < ·) := by
  cases g
  case monthly =>
    refine List.Pairwise.map _ ?_ (List.pairwise_lt_range _)
    intro a b hab
    have := monthEnd_strictMono (Nat.add_lt_add_left hab (mIdx mn))
    omega
  all_goals exact pairwise_affine _ _ _ (by decide)

lemma labelSeq_eq_single {g : Granularity} {o mn mx : Nat}
    (h : binLabel g o mn = binLabel g o mx) : labelSeq g o mn mx = [binLabel g o mn] := by
  cases g
  case monthly =>
    have hidx : mIdx mn = mIdx mx := by
      have h24 : 24 * monthEnd (mIdx mn) = 24 * monthEnd (mIdx mx) := h
      exact monthEnd_inj (by omega)
    have h1 : List.range 1 = [0] := rfl
    simp [labelSeq, hidx, binLabel, h1]
  all_goals
    simp [labelSeq, ← h, Nat.sub_self, List.range_succ]

/-! Helper lemmas about per-bucket means. -/

lemma meanFields_cons_some {c1 : String} {cols : List String}
    {rs : List (Nat × List (String × Rat))} {v : Rat} (h : fieldMean c1 rs = some v) :
    meanFields (c1 :: cols) rs = (c1, v) :: meanFields cols rs := by
  simp [meanFields, List.filterMap_cons, h]

lemma meanFields_cons_none {c1 : String} {cols : List String}
    {rs : List (Nat × List (String × Rat))} (h : fieldMean c1 rs = none) :
    meanFields (c1 :: cols) rs = meanFields cols rs := by
  simp [meanFields, List.filterMap_cons, h]

lemma lookupF_meanFields_none {c : String} {cols : List String}
    {rs : List (Nat × List (String × Rat))} (h : fieldMean c rs = none) :
    lookupF c (meanFields cols rs) = none := by
  induction cols with
  | nil => rfl
  | cons c1 cols ih =>
    cases hfm : fieldMean c1 rs with
    | none => rw [meanFields_cons_none hfm]; exact ih
    | some v =>
      rw [meanFields_cons_some hfm]
      by_cases hcc : c1 = c
      · subst hcc; rw [hfm] at h; exact Option.noConfusion h
      · simp only [lookupF, if_neg hcc]; exact ih

lemma lookupF_meanFields {c : String} {cols : List String}
    {rs : List (Nat × List (String × Rat))} (hc : c ∈ cols) :
    lookupF c (meanFields cols rs) = fieldMean c rs := by
  induction cols with
  | nil => cases hc
  | cons c1 cols ih =>
    by_cases hcc : c1 = c
    · subst hcc
      cases hfm : fieldMean c1 rs with
      | some v => rw [meanFields_cons_some hfm]; simp [lookupF, hfm]
      | none => rw [meanFields_cons_none hfm]; exact lookupF_meanFields_none hfm
    · have hc1 : c ∈ cols := by
        rcases List.mem_cons.mp hc with rfl | h1
        · exact absurd rfl hcc
        · exact h1
      cases hfm : fieldMean c1 rs with
      | some v =>
        rw [meanFields_cons_some hfm]
        simp only [lookupF, if_neg hcc]
        exact ih hc1
      | none => rw [meanFields_cons_none hfm]; exact ih hc1

lemma filterMap_lookupF_split (c : String) (rs : List (Nat × List (String × Rat))) :
    rs.filterMap (fun r => lookupF c r.2) =
      (rs.filter (fun r => (lookupF c r.2).isSome)).map (fun r => (lookupF c r.2).getD 0) := by
  induction rs with
  | nil => rfl
  | cons r rs ih =>
    cases hl : lookupF c r.2 with
    | none => simp [List.filterMap_cons, List.filter_cons, hl, ih]
    | some v => simp [List.filterMap_cons, List.filter_cons, hl, ih]

/-! Helper lemma about timestamp conversion. -/

lemma to_datetime_error {l : List RawTs} {msg : String} (h : RawTs.invalid msg ∈ l) :
    ∃ m, to_datetime l = .error m := by
  induction l with
  | nil => cases h
  | cons a l ih =>
    cases a with
    | invalid s => exact ⟨s, rfl⟩
    | null =>
      rcases List.mem_cons.mp h with habs | h1
      · exact RawTs.noConfusion habs
      · obtain ⟨m, hm⟩ := ih h1
        exact ⟨m, by simp [to_datetime, hm, Except.map]⟩
    | ts t =>
      rcases List.mem_cons.mp h with habs | h1
      · exact RawTs.noConfusion habs
      · obtain ⟨m, hm⟩ := ih h1
        exact ⟨m, by simp [to_datetime, hm, Except.map]⟩

/-! Claim C3.  Do aggregation bucket edges equal `buildBoundaries`? -/

/-- C3 counterexample: for the DAILY range [2024-01-01, 2024-01-08] with a
single row at 2024-01-03, `resample` anchors its bins at the first data
timestamp, so the aggregation's bucket edges are not the boundaries that
`generate_time_series` produced (which are in fact never passed to
`resample_data`). -/
theorem aggregation_edges_cex :
    (generate_time_series (mkDay 2024 1 1) (mkDay 2024 1 8)).2 = Granularity.daily ∧
    ((resample_data (Frame.mk false ["a"] [Row.mk (some (24 * mkDay 2024 1 3)) [("a", 2)]])
        Granularity.daily ["a"]).1.map Prod.fst) ≠
      (generate_time_series (mkDay 2024 1 1) (mkDay 2024 1 8)).1 := by decide

/-- C3 (amended): the aggregation step computes its own bucket edges from
the data's timestamps (pandas `origin='start_day'`), independently of
`buildBoundaries`, and the two differ in general; they agree — every
aggregation bucket edge is one of the generated boundaries — in the special
case where the earliest row timestamp is exactly the range start (midnight)
and all rows lie within the range, for the fixed-width granularities. -/
theorem aggregation_edges_amended (g : Granularity) (hg : g ≠ .monthly) (s e : Nat)
    (cols : List String) (tss : List (Nat × List (String × Rat))) (hne : tss ≠ [])
    (hmin : minD (tss.map Prod.fst) = 24 * s)
    (hmax : maxD (tss.map Prod.fst) ≤ 24 * e) :
    ∀ L ∈ (resampleOut g cols tss).map Prod.fst, L ∈ buildBoundaries s e g := by
  intro L hL
  have hw := widthHours_pos hg
  have hmapne : tss.map Prod.fst ≠ [] := fun hh => hne (List.map_eq_nil.mp hh)
  have hsmx : 24 * s ≤ maxD (tss.map Prod.fst) := hmin ▸ minD_le_maxD hmapne
  have hse : 24 * s ≤ 24 * e := le_trans hsmx hmax
  rw [resampleOut_eq _ _ _ hne] at hL
  have hL1 : L ∈ labelSeq g (floorDay (minD (tss.map Prod.fst))) (minD (tss.map Prod.fst))
      (maxD (tss.map Prod.fst)) := by
    simpa using hL
  have ho : floorDay (24 * s) = 24 * s := by
    unfold floorDay; omega
  rw [hmin, ho, labelSeq_fixed hg] at hL1
  have hL0 : binLabel g (24 * s) (24 * s) = 24 * s := by
    rw [binLabel_fixed hg, Nat.sub_self, Nat.zero_div, Nat.zero_mul, Nat.add_zero]
  have hLmax : binLabel g (24 * s) (maxD (tss.map Prod.fst)) ≤ 24 * e := by
    rw [binLabel_fixed hg]
    have h2 := Nat.div_mul_le_self (maxD (tss.map Prod.fst) - 24 * s) (widthHours g)
    omega
  obtain ⟨k, hk, hkL⟩ := List.mem_map.mp hL1
  have hkrange := List.mem_range.mp hk
  have hkw : k * widthHours g ≤
      binLabel g (24 * s) (maxD (tss.map Prod.fst)) - binLabel g (24 * s) (24 * s) := by
    exact (Nat.le_div_iff_mul_le hw).mp (Nat.lt_succ_iff.mp hkrange)
  rw [buildBoundaries_fixed hg]
  refine (mem_fixedRange hw hse).mpr ⟨k, ?_, ?_⟩
  · rw [← hkL, hL0]
  · rw [← hkL]
    omega

/-- C3 witness: with one row exactly at the range start, the single
aggregation edge is one of the generated boundaries. -/
theorem aggregation_edges_amended_witness :
    8760 ∈ buildBoundaries 365 372 Granularity.daily :=
  aggregation_edges_amended .daily (by decide) 365 372 ["a"] [(8760, [("a", 2)])]
    (by decide) (by decide) (by decide) 8760 (by decide)

lemma map_fst_map_pair (l : List Nat) (f : Nat → List (String × Rat)) :
    (l.map (fun L => (L, f L))).map Prod.fst = l := by
  induction l with
  | nil => rfl
  | cons a l ih => simp only [List.map_cons, ih]

lemma mem_resampleOut_of_label (g : Granularity) (cols : List String)
    (tss : List (Nat × List (String × Rat))) (L : Nat)
    (hL : L ∈ (resampleOut g cols tss).map Prod.fst) :
    (L, meanFields cols (tss.filter (fun r =>
      binLabel g (floorDay (minD (tss.map Prod.fst))) r.1 = L))) ∈ resampleOut g cols tss := by
  by_cases hn : tss = []
  · subst hn; simp [resampleOut] at hL
  · rw [resampleOut_eq _ _ _ hn] at hL ⊢
    have hL1 : L ∈ labelSeq g (floorDay (minD (tss.map Prod.fst))) (minD (tss.map Prod.fst))
        (maxD (tss.map Prod.fst)) := by
      simpa using hL
    exact List.mem_map_of_mem _ hL1

/-! Claim C5.  Missing fields are excluded from the mean. -/

/-- C5: in every output bucket, the value of a column is the arithmetic
mean over only the rows of the bucket where the column is present: a row
lacking the column contributes to neither the numerator nor the
denominator, and a column present on no row of the bucket is absent from
the bucket's field map. -/
theorem aggregate_mean_present_only (g : Granularity) (cols : List String)
    (tss : List (Nat × List (String × Rat))) (c : String) (hc : c ∈ cols)
    (L : Nat) (fm : List (String × Rat)) (hmem : (L, fm) ∈ resampleOut g cols tss) :
    lookupF c fm =
      (let bucket := tss.filter (fun r =>
         binLabel g (floorDay (minD (tss.map Prod.fst))) r.1 = L)
       let present := bucket.filter (fun r => (lookupF c r.2).isSome)
       if present = [] then none
       else some ((present.map (fun r => (lookupF c r.2).getD 0)).sum /
         (present.length : Rat))) := by
  obtain ⟨hL, rfl⟩ := mem_resampleOut hmem
  rw [lookupF_meanFields hc]
  simp only [fieldMean, filterMap_lookupF_split, List.map_eq_nil, List.length_map]

/-- C5 witness: rows `[(t0, {a: 2}), (t1, {})]` in one bucket yield `a: 2`
(the second row's missing `a` is not treated as zero). -/
theorem aggregate_mean_present_only_witness :
    ∃ fm, (8760, fm) ∈ resampleOut .daily ["a"] [(8760, [("a", 2)]), (8761, [])] ∧
      lookupF "a" fm = some 2 := by
  have hmem := mem_resampleOut_of_label .daily ["a"]
    [(8760, [("a", 2)]), (8761, [])] 8760 (by decide)
  refine ⟨_, hmem, ?_⟩
  have h := aggregate_mean_present_only .daily ["a"] [(8760, [("a", 2)]), (8761, [])]
    "a" (by decide) 8760 _ hmem
  rw [h]
  have hpresent : (([(8760, [("a", (2 : Rat))]), (8761, [])].filter (fun r =>
      binLabel .daily (floorDay (minD ([(8760, [("a", (2 : Rat))]),
        (8761, ([] : List (String × Rat)))].map Prod.fst))) r.1 = 8760)).filter
      (fun r => (lookupF "a" r.2).isSome)) = [(8760, [("a", 2)])] := by decide
  simp only [hpresent]
  norm_num [lookupF]


/-! Claim C6.  The mean of two rows in one bucket. -/

/-- C6: two rows carrying the same column and falling in the same bucket
yield that bucket's arithmetic mean of their two values. -/
theorem aggregate_mean_two (g : Granularity) (c : String) (t0 t1 : Nat) (x y : Rat)
    (hb : binLabel g (floorDay (minD [t0, t1])) t0 = binLabel g (floorDay (minD [t0, t1])) t1) :
    resampleOut g [c] [(t0, [(c, x)]), (t1, [(c, y)])] =
      [(binLabel g (floorDay (minD [t0, t1])) t0, [(c, (x + y) / 2)])] := by
  have hne : ([(t0, [(c, x)]), (t1, [(c, y)])] : List (Nat × List (String × Rat))) ≠ [] := by
    simp
  rw [resampleOut_eq _ _ _ hne]
  have hmap : ([(t0, [(c, x)]), (t1, [(c, y)])].map Prod.fst) = [t0, t1] := rfl
  rw [hmap]
  set o := floorDay (minD [t0, t1]) with ho
  have hminmax : (minD [t0, t1] = t0 ∧ maxD [t0, t1] = t1) ∨
      (minD [t0, t1] = t1 ∧ maxD [t0, t1] = t0) := by
    have h1 : minD [t0, t1] = Nat.min t1 t0 := rfl
    have h2 : maxD [t0, t1] = Nat.max t1 t0 := rfl
    rcases Nat.le_total t0 t1 with h | h
    · exact Or.inl ⟨h1.trans (Nat.min_eq_right h), h2.trans (Nat.max_eq_left h)⟩
    · exact Or.inr ⟨h1.trans (Nat.min_eq_left h), h2.trans (Nat.max_eq_right h)⟩
  have hmean : meanFields [c] [(t0, [(c, x)]), (t1, [(c, y)])] = [(c, (x + y) / 2)] := by
    have hfm : fieldMean c [(t0, [(c, x)]), (t1, [(c, y)])] = some ((x + y) / 2) := by
      simp [fieldMean, List.filterMap_cons, lookupF]
    rw [meanFields_cons_some hfm]
    rfl
  have hsingle : labelSeq g o (minD [t0, t1]) (maxD [t0, t1]) = [binLabel g o t0] := by
    rcases hminmax with ⟨hmn, hmx⟩ | ⟨hmn, hmx⟩
    · rw [hmn, hmx, labelSeq_eq_single hb]
    · rw [hmn, hmx, labelSeq_eq_single hb.symm, ← hb]
  rw [hsingle]
  simp only [List.map_cons, List.map_nil]
  have hfilter : ([(t0, [(c, x)]), (t1, [(c, y)])].filter (fun r =>
      binLabel g o r.1 = binLabel g o t0)) = [(t0, [(c, x)]), (t1, [(c, y)])] := by
    simp [List.filter_cons, hb.symm]
  rw [hfilter, hmean]

/-- C6 witness: rows `[(t0, {a: 2}), (t1, {a: 4})]` in one DAILY bucket
yield `a: 3`. -/
theorem aggregate_mean_two_witness :
    resampleOut .daily ["a"] [(8760, [("a", 2)]), (8761, [("a", 4)])] = [(8760, [("a", 3)])] := by
  have h := aggregate_mean_two .daily "a" 8760 8761 2 4 (by decide)
  rw [h]
  have h3 : ((2 : Rat) + 4) / 2 = 3 := by norm_num
  rw [h3]
  decide

/-! Claim C7.  Bucket presence, order, and the zero-row case. -/

/-- C7 counterexample: `resample` over zero rows returns an empty output —
the boundary intervals of the (non-empty) generated boundary sequence do
not appear at all, refuting "every boundary interval appears in the
output". -/
theorem empty_rows_cex :
    resampleOut .daily ["a"] [] = [] ∧
    (generate_time_series (mkDay 2024 1 1) (mkDay 2024 1 8)).1 ≠ [] := by decide

/-- C7 (amended): aggregation over zero rows yields an empty output (no
buckets at all, rather than all boundary buckets with empty maps); for
non-empty data the output bucket labels are strictly ascending, span the
bins actually touched by the data (not the generated boundaries), every
emitted label carries exactly the per-column means of its bucket, and a
bucket with no rows carries an empty field map. -/
theorem aggregate_buckets (g : Granularity) (cols : List String)
    (tss : List (Nat × List (String × Rat))) :
    resampleOut g cols ([] : List (Nat × List (String × Rat))) = [] ∧
    ((resampleOut g cols tss).map Prod.fst).Pairwise (· < ·) ∧
    (∀ L, L ∈ (resampleOut g cols tss).map Prod.fst →
      (L, meanFields cols (tss.filter (fun r =>
        binLabel g (floorDay (minD (tss.map Prod.fst))) r.1 = L))) ∈ resampleOut g cols tss) ∧
    meanFields cols [] = [] := by
  refine ⟨rfl, ?_, ?_, ?_⟩
  · by_cases hn : tss = []
    · subst hn; simp [resampleOut]
    · rw [resampleOut_eq _ _ _ hn]
      rw [map_fst_map_pair]
      exact labelSeq_pairwise g _ _ _
  · intro L hL
    exact mem_resampleOut_of_label g cols tss L hL
  · simp [meanFields, fieldMean, List.filterMap_eq_nil]

/-- C7 witness: one empty bucket between two occupied DAILY buckets appears
in the output (its field map evaluates to empty). -/
theorem aggregate_buckets_witness :
    (8784, meanFields ["a"] ([(8760, [("a", (2 : Rat))]), (8832, [("a", 4)])].filter
      (fun r => binLabel .daily (floorDay (minD ([(8760, [("a", (2 : Rat))]),
        (8832, [("a", 4)])].map Prod.fst))) r.1 = 8784))) ∈
      resampleOut .daily ["a"] [(8760, [("a", 2)]), (8832, [("a", 4)])] :=
  (aggregate_buckets .daily ["a"] [(8760, [("a", 2)]), (8832, [("a", 4)])]).2.2.1 8784
    (by decide)

/-! Claim C8.  Rows with null or unparseable timestamps. -/

/-- C8 counterexample: a row with an unparseable timestamp is fatal —
`pd.to_datetime` (default `errors='raise'`) aborts the whole computation,
so nothing is aggregated and no skipped-row count is produced, refuting
"counted, dropped, never fatal". -/
theorem skipped_row_cex :
    mainResample [RawRow.mk (RawTs.invalid "bad") [("a", 2)], RawRow.mk (RawTs.ts 8760) [("a", 4)]]
      ["a"] 365 365 = .error "bad" := rfl

/-- C8 (amended): a row whose timestamp is unparseable makes the whole
aggregation fail with an error; a row whose timestamp is null becomes `NaT`,
is silently dropped by resampling, and the remaining rows are aggregated
(the result equals the aggregation of the non-null rows alone, the null
row's fields contributing nothing) — but no skipped-row count is computed
or returned anywhere. -/
theorem skipped_row_amended :
    (∀ (raw : List RawRow) (cols : List String) (s e : Nat) (msg : String),
      RawTs.invalid msg ∈ raw.map RawRow.blockDate →
      ∃ m, mainResample raw cols s e = .error m) ∧
    mainResample [RawRow.mk RawTs.null [("a", 5)], RawRow.mk (RawTs.ts 8760) [("a", 2)]]
      ["a"] 365 365 = .ok (resampleOut .hourly ["a"] [(8760, [("a", 2)])]) := by
  constructor
  · intro raw cols s e msg hmem
    obtain ⟨m, hm⟩ := to_datetime_error hmem
    exact ⟨m, by simp [mainResample, hm]⟩
  · rfl

/-- C8 witness: a concrete unparseable timestamp aborts the computation. -/
theorem skipped_row_amended_witness :
    ∃ m, mainResample [RawRow.mk (RawTs.invalid "x") []] [] 0 0 = .error m :=
  skipped_row_amended.1 [RawRow.mk (RawTs.invalid "x") []] [] 0 0 "x" (by decide)

/-! Claim C10.  Does `resample_data` leave its input unchanged? -/

/-- C10 counterexample: `resample_data` does not leave the caller's
dataframe unchanged — `set_index('BLOCK_DATE', inplace=True)` mutates its
timestamp keying. -/
theorem resample_mutates_cex :
    (resample_data (Frame.mk false ["a"] [Row.mk (some 8808) [("a", 2)]]) .daily ["a"]).2 ≠
      Frame.mk false ["a"] [Row.mk (some 8808) [("a", 2)]] := by decide

/-- C10 (amended): `resample_data` mutates the caller's dataframe exactly by
making `BLOCK_DATE` its index; the row values and column names themselves
are unchanged and no other state is touched. -/
theorem resample_data_frame_effect (df : Frame) (g : Granularity) (columns : List String) :
    (resample_data df g columns).2 = { df with blockDateIsIndex := true } ∧
    (resample_data df g columns).2.rows = df.rows ∧
    (resample_data df g columns).2.cols = df.cols :=
  ⟨rfl, rfl, rfl⟩

